import Mathlib

/-!
Verification of the singleton / collectable library (`src/singleton.h`,
`src/collectable.h`).

The development shallowly embeds the library's data model:

* `PointerWrapper` mirrors `PointerWrapper<Type>` — an `initialized` flag plus
  a raw pointer, here modelled as `Option Nat` (a pointer is an abstract
  address; `none` is `nullptr`).
* `PCHelper` mirrors the process-wide `SingletonPostConstructionHelper` —
  a construction-nesting counter (`int` in the source, hence `Int` here) and
  the vector of objects awaiting their post-construction hook.
* `TState` bundles one type's `InstanceSafetyHelper` wrapper with the global
  helper; `createInstance`, `destructInstance`, `getInstance`,
  `getInstanceDuringBuilding` and `Instance` are translated from
  `Singleton<Type>`.  A failed `assert` halts the process, so each fallible
  operation returns `Except TState _` whose `error` carries the state at the
  moment of the failed assertion (nothing past the assert executes).
* `Collector.insert` / `Collector.erase` are translated from
  `Collector<Type>`; the `std::unordered_set` is modelled as a duplicate-free
  list of addresses.
-/

/-- Mirrors `PointerWrapper<Type>`: `initialized` flag and raw pointer
(`none` = `nullptr`). -/
structure PointerWrapper where
  initialized : Bool
  raw_pointer : Option Nat
deriving DecidableEq, Repr

/-- Initial wrapper, from `InstanceSafetyHelper()`'s member initializer
`wrapper{false, nullptr}`. -/
def PointerWrapper.init : PointerWrapper := ⟨false, none⟩

/-- The spec's "occupied": storage has been allocated.  The source has no
separate flag; storage is allocated exactly when `raw_pointer` is set, so
occupancy is `raw_pointer != nullptr`. -/
def PointerWrapper.occupied (w : PointerWrapper) : Prop :=
  w.raw_pointer.isSome

instance (w : PointerWrapper) : Decidable w.occupied := by
  unfold PointerWrapper.occupied; infer_instance

/-- State of `SingletonPostConstructionHelper`: the static
`s_construct_stack_size` (a C++ `int`) and `s_classes_under_construction`
(vector of pointers, in push order). -/
structure PCHelper where
  s_construct_stack_size : Int
  s_classes_under_construction : List Nat
deriving DecidableEq, Repr

/-- Initial helper state: zero-initialized statics. -/
def PCHelper.init : PCHelper := ⟨0, []⟩

/-- `SingletonPostConstructionHelper::push`: increment the counter and
`push_back` the pointer. -/
def PCHelper.push (p : Nat) (st : PCHelper) : PCHelper :=
  { s_construct_stack_size := st.s_construct_stack_size + 1,
    s_classes_under_construction := st.s_classes_under_construction ++ [p] }

/-- `SingletonPostConstructionHelper::pop`: assert the counter is positive
(`none` on failure), decrement it, and if it reached zero call
`postConstruction` on each queued pointer in vector order and clear the
vector.  The first component of the result is the list of pointers whose
hooks were invoked, in invocation order. -/
def PCHelper.pop (st : PCHelper) : Option (List Nat × PCHelper) :=
  if st.s_construct_stack_size > 0 then
    let sz := st.s_construct_stack_size - 1
    if sz = 0 then
      some (st.s_classes_under_construction, ⟨0, []⟩)
    else
      some ([], ⟨sz, st.s_classes_under_construction⟩)
  else
    none

/-!
A (possibly reentrant) chain of singleton constructions is a tree: each node
is one `createInstance` call, labelled by the address it allocates, and its
children are the nested singleton constructions its constructor body performs,
in program order.  `createInstance` pushes its address before the constructor
body runs and pops after the body returns, so running a node is
`push; run children; pop`.
-/

mutual
/-- One singleton construction: its allocated address and the nested
constructions performed by its constructor body, in order. -/
inductive CTree where
  | node : Nat → CForest → CTree

/-- A sequence of sibling constructions. -/
inductive CForest where
  | nil : CForest
  | cons : CTree → CForest → CForest
end

mutual
/-- Addresses in construction-start (push) order: a node's own address, then
its children's, depth-first. -/
def CTree.preorder : CTree → List Nat
  | .node lbl ts => lbl :: ts.preorder

/-- Preorder of a forest. -/
def CForest.preorder : CForest → List Nat
  | .nil => []
  | .cons t ts => t.preorder ++ ts.preorder
end

mutual
/-- Addresses in constructor-completion order: children first, the node's own
address last (the outermost construction completes last). -/
def CTree.postorder : CTree → List Nat
  | .node lbl ts => ts.postorder ++ [lbl]

/-- Postorder of a forest. -/
def CForest.postorder : CForest → List Nat
  | .nil => []
  | .cons t ts => t.postorder ++ ts.postorder
end

mutual
/-- Run one construction against the helper: `push` the address, run the
nested constructions, then `pop`.  Returns the hook invocations (in order)
and the final helper state; `none` means a failed assertion. -/
def CTree.run : CTree → PCHelper → Option (List Nat × PCHelper)
  | .node lbl ts, st =>
    (ts.run (st.push lbl)).bind fun r =>
      (r.2.pop).map fun q => (r.1 ++ q.1, q.2)

/-- Run sibling constructions in order, concatenating their hook logs. -/
def CForest.run : CForest → PCHelper → Option (List Nat × PCHelper)
  | .nil, st => some ([], st)
  | .cons t ts, st =>
    (t.run st).bind fun r1 =>
      (ts.run r1.2).map fun r2 => (r1.1 ++ r2.1, r2.2)
end

mutual
/-- While the depth stays positive, a nested run fires no hooks: it only
appends the preorder of the constructions to the pending vector. -/
theorem CTree.run_nested : ∀ (t : CTree) (k : Int) (P : List Nat), 1 ≤ k →
    t.run ⟨k, P⟩ = some ([], ⟨k, P ++ t.preorder⟩)
  | .node lbl ts, k, P, hk => by
    have hrec := CForest.run_nested_forest ts (k + 1) (P ++ [lbl]) (by omega)
    simp only [CTree.run, PCHelper.push]
    rw [hrec]
    simp only [Option.bind_some, Option.some_bind, PCHelper.pop]
    have hpos : k + 1 > (0 : Int) := by omega
    have hne : ¬(k + 1 - 1 = (0 : Int)) := by omega
    rw [if_pos hpos, if_neg hne]
    have hsz : k + 1 - 1 = k := by omega
    simp only [Option.map_some, hsz]
    simp [CTree.preorder]

/-- A forest run at positive depth likewise fires no hooks and appends its
preorder. -/
theorem CForest.run_nested_forest : ∀ (ts : CForest) (k : Int) (P : List Nat), 1 ≤ k →
    ts.run ⟨k, P⟩ = some ([], ⟨k, P ++ ts.preorder⟩)
  | .nil, k, P, _ => by
    simp [CForest.run, CForest.preorder]
  | .cons t ts, k, P, hk => by
    simp only [CForest.run]
    rw [CTree.run_nested t k P hk]
    simp only [Option.some_bind]
    rw [CForest.run_nested_forest ts k (P ++ t.preorder) hk]
    simp [CForest.preorder]
end

/-- A full top-level construction chain succeeds from the idle coordinator,
returns the coordinator to its idle state, and fires every queued hook —
in construction-START (push) order, the outermost caller's hook FIRST. -/
theorem CTree.run_top (t : CTree) :
    t.run PCHelper.init = some (t.preorder, PCHelper.init) := by
  cases t with
  | node lbl ts =>
    simp only [CTree.run, PCHelper.init, PCHelper.push]
    have h01 : (0 : Int) + 1 = 1 := by omega
    rw [List.nil_append, h01, CForest.run_nested_forest ts 1 [lbl] (le_refl 1)]
    simp [PCHelper.pop, CTree.preorder]

mutual
/-- The start-order list and the completion-order list of a chain contain the
same constructions: draining in either order invokes every queued hook. -/
theorem CTree.preorder_perm_postorder : ∀ t : CTree, t.preorder.Perm t.postorder
  | .node lbl ts => by
    have h := CForest.preorder_perm_postorder_forest ts
    simp only [CTree.preorder, CTree.postorder]
    exact (h.cons lbl).trans (List.perm_append_singleton lbl ts.postorder).symm

/-- Forest version of `CTree.preorder_perm_postorder`. -/
theorem CForest.preorder_perm_postorder_forest :
    ∀ ts : CForest, ts.preorder.Perm ts.postorder
  | .nil => List.Perm.refl []
  | .cons t ts => by
    simp only [CForest.preorder, CForest.postorder]
    exact (CTree.preorder_perm_postorder t).append (CForest.preorder_perm_postorder_forest ts)
end

/-- C1 (amended): when a (possibly reentrant) chain of singleton
constructions fully unwinds and the coordinator's nesting depth returns to
zero, every queued post-construction hook is invoked (the invocation list is
a permutation of the completion-order list), and the hooks are executed in
the order the corresponding constructors STARTED, i.e. the outermost
caller's hook runs FIRST. -/
theorem C1_hooks_drain_in_start_order (lbl : Nat) (ts : CForest) :
    (CTree.node lbl ts).run PCHelper.init =
      some ((CTree.node lbl ts).preorder, PCHelper.init) ∧
    (CTree.node lbl ts).preorder = lbl :: ts.preorder ∧
    ((CTree.node lbl ts).preorder).Perm ((CTree.node lbl ts).postorder) := by
  refine ⟨CTree.run_top _, rfl, CTree.preorder_perm_postorder _⟩

/-- C1: counterexample to the claimed order.  Constructing singleton `0`
whose constructor reentrantly constructs singleton `1`: the inner
constructor completes first, so completion order is `[1, 0]` (outermost
last), but the code invokes the hooks in push order `[0, 1]` — the
outermost caller's hook runs first, not last. -/
theorem C1_counterexample :
    (CTree.node 0 (.cons (.node 1 .nil) .nil)).run PCHelper.init =
      some ([0, 1], PCHelper.init) ∧
    (CTree.node 0 (.cons (.node 1 .nil) .nil)).postorder = [1, 0] ∧
    ([0, 1] : List Nat) ≠ [1, 0] := by
  refine ⟨?_, rfl, by decide⟩
  rw [CTree.run_top]
  rfl

/-- One call against the coordinator: `push` (with the pushed address) or
`pop`. -/
inductive HOp where
  | push : Nat → HOp
  | pop : HOp
deriving DecidableEq, Repr

/-- Execute one coordinator call; `push` never fails, `pop` asserts. -/
def HOp.run : HOp → PCHelper → Option (List Nat × PCHelper)
  | .push p, st => some ([], st.push p)
  | .pop, st => st.pop

/-- Execute a sequence of coordinator calls from a state, failing if any
call's assertion fails. -/
def PCHelper.runOps : List HOp → PCHelper → Option PCHelper
  | [], st => some st
  | op :: ops, st => (op.run st).bind fun r => PCHelper.runOps ops r.2

/-- The coordinator invariant claimed by the spec: the depth is never
negative, and the pending vector is non-empty only while the depth is
positive. -/
def PCHelper.Inv (st : PCHelper) : Prop :=
  0 ≤ st.s_construct_stack_size ∧
  (st.s_classes_under_construction ≠ [] → 0 < st.s_construct_stack_size)

instance (st : PCHelper) : Decidable st.Inv := by
  unfold PCHelper.Inv; infer_instance

/-- Any single successful coordinator call preserves the invariant. -/
theorem HOp.run_inv (op : HOp) (st : PCHelper) (l : List Nat) (st' : PCHelper)
    (h : st.Inv) (hrun : op.run st = some (l, st')) : st'.Inv := by
  cases op with
  | push p =>
    simp only [HOp.run, Option.some_inj] at hrun
    obtain ⟨h0, _⟩ := h
    cases hrun
    exact ⟨by simp [PCHelper.push]; omega, fun _ => by simp [PCHelper.push]; omega⟩
  | pop =>
    simp only [HOp.run, PCHelper.pop] at hrun
    by_cases hpos : st.s_construct_stack_size > 0
    · rw [if_pos hpos] at hrun
      by_cases hz : st.s_construct_stack_size - 1 = 0
      · rw [if_pos hz] at hrun
        cases hrun
        exact ⟨le_refl 0, fun hne => absurd rfl hne⟩
      · rw [if_neg hz] at hrun
        cases hrun
        exact ⟨by show (0 : Int) ≤ st.s_construct_stack_size - 1; omega,
          fun _ => by show (0 : Int) < st.s_construct_stack_size - 1; omega⟩
    · rw [if_neg hpos] at hrun
      exact absurd hrun (by simp)

/-- A successful sequence of coordinator calls preserves the invariant. -/
theorem PCHelper.runOps_inv : ∀ (ops : List HOp) (st st' : PCHelper),
    st.Inv → PCHelper.runOps ops st = some st' → st'.Inv
  | [], st, st', h, hrun => by
    simp only [PCHelper.runOps, Option.some_inj] at hrun
    exact hrun ▸ h
  | op :: ops, st, st', h, hrun => by
    simp only [PCHelper.runOps] at hrun
    cases hop : op.run st with
    | none => rw [hop] at hrun; exact absurd hrun (by simp)
    | some r =>
      rw [hop] at hrun
      simp only [Option.some_bind] at hrun
      exact PCHelper.runOps_inv ops r.2 st' (op.run_inv st r.1 r.2 h (by rw [hop])) hrun

/-- C4: the coordinator invariant — the pending queue is non-empty only
while the depth is positive, the queue is drained (the fired list is the
whole queue) and cleared in the same `pop` step in which the depth returns
to zero, every push/pop sequence from the initial state preserves the
invariant, and the depth never becomes negative. -/
theorem C4_coordinator_invariant :
    PCHelper.init.Inv ∧
    (∀ (op : HOp) (st : PCHelper) (l : List Nat) (st' : PCHelper),
      st.Inv → op.run st = some (l, st') → st'.Inv) ∧
    (∀ (st : PCHelper) (l : List Nat) (st' : PCHelper),
      st.pop = some (l, st') → st'.s_construct_stack_size = 0 →
        l = st.s_classes_under_construction ∧
        st'.s_classes_under_construction = []) ∧
    (∀ (ops : List HOp) (st' : PCHelper),
      PCHelper.runOps ops PCHelper.init = some st' →
        0 ≤ st'.s_construct_stack_size ∧
        (st'.s_classes_under_construction ≠ [] →
          0 < st'.s_construct_stack_size)) := by
  refine ⟨⟨le_refl 0, fun hne => absurd rfl hne⟩,
    fun op st l st' h hrun => op.run_inv st l st' h hrun, ?_, ?_⟩
  · intro st l st' hrun hz
    simp only [PCHelper.pop] at hrun
    by_cases hpos : st.s_construct_stack_size > 0
    · rw [if_pos hpos] at hrun
      by_cases hzero : st.s_construct_stack_size - 1 = 0
      · rw [if_pos hzero] at hrun
        cases hrun
        exact ⟨rfl, rfl⟩
      · rw [if_neg hzero] at hrun
        cases hrun
        exact absurd hz hzero
    · rw [if_neg hpos] at hrun
      exact absurd hrun (by simp)
  · intro ops st' hrun
    exact PCHelper.runOps_inv ops PCHelper.init st'
      ⟨le_refl 0, fun hne => absurd rfl hne⟩ hrun

/-- Witness for C4: the invariant transported along a concrete call
sequence (a push of address `5` from the idle coordinator). -/
theorem C4_witness : PCHelper.Inv ⟨1, [5]⟩ :=
  C4_coordinator_invariant.2.2.2 [HOp.push 5] ⟨1, [5]⟩ (by decide)

/-!
Per-type singleton state: one type's `InstanceSafetyHelper` wrapper together
with the process-wide coordinator.  `hookLog` records every
`postConstruction` invocation (by address, in invocation order).  A failed
`assert` halts the process, so fallible operations return `Except TState _`
whose `error` carries the state at the moment of the failure — nothing past
a failed assert executes.
-/
structure TState where
  wrapper : PointerWrapper
  helper : PCHelper
  hookLog : List Nat
deriving DecidableEq, Repr

/-- Process start: wrapper `{false, nullptr}`, idle coordinator, no hooks
invoked. -/
def TState.init : TState := ⟨PointerWrapper.init, PCHelper.init, []⟩

/-- `Singleton<Type>::createInstance`: assert the pointer slot is empty
(checked both before and after taking the mutex — identical here), allocate
(`fresh` is the malloc result), store the pointer, push it on the
coordinator, run the constructor body, set `initialized`, pop the
coordinator, and return the wrapper. -/
def createInstance (fresh : Nat) (st : TState) :
    Except TState (PointerWrapper × TState) :=
  match st.wrapper.raw_pointer with
  | some _ => .error st
  | none =>
    let st1 : TState :=
      { st with wrapper := ⟨st.wrapper.initialized, some fresh⟩,
                helper := st.helper.push fresh }
    let st2 : TState := { st1 with wrapper := ⟨true, some fresh⟩ }
    match st2.helper.pop with
    | none => .error st2
    | some (fired, h2) =>
      let st3 : TState := { st2 with helper := h2, hookLog := st2.hookLog ++ fired }
      .ok (st3.wrapper, st3)

/-- `Singleton<Type>::destructInstance`: assert the pointer is non-null and
the wrapper initialized, then `delete` the instance, whose `~Singleton`
asserts `initialized` (under the mutex) and resets the wrapper to
`{false, nullptr}`. -/
def destructInstance (st : TState) : Except TState TState :=
  match st.wrapper.raw_pointer with
  | none => .error st
  | some _ =>
    if st.wrapper.initialized then
      .ok { st with wrapper := ⟨false, none⟩ }
    else .error st

/-- `Singleton<Type>::getInstance`: assert the pointer is non-null and the
wrapper initialized, and return the raw pointer; the state is untouched. -/
def getInstance (st : TState) : Except TState (Nat × TState) :=
  match st.wrapper.raw_pointer with
  | none => .error st
  | some p => if st.wrapper.initialized then .ok (p, st) else .error st

/-- `Singleton<Type>::getInstanceDuringBuilding`: assert the pointer is
non-null and the wrapper NOT yet initialized, and return the raw pointer;
the state is untouched. -/
def getInstanceDuringBuilding (st : TState) : Except TState (Nat × TState) :=
  match st.wrapper.raw_pointer with
  | none => .error st
  | some p => if st.wrapper.initialized then .error st else .ok (p, st)

/-- The deprecated `Singleton<Type>::Instance`: double-checked — if the
pointer is already non-null the construction block is skipped entirely and
the current wrapper is returned; otherwise it constructs exactly as
`createInstance` does (but with no assertion). -/
def Instance (fresh : Nat) (st : TState) :
    Except TState (PointerWrapper × TState) :=
  match st.wrapper.raw_pointer with
  | some _ => .ok (st.wrapper, st)
  | none =>
    let st1 : TState :=
      { st with wrapper := ⟨st.wrapper.initialized, some fresh⟩,
                helper := st.helper.push fresh }
    let st2 : TState := { st1 with wrapper := ⟨true, some fresh⟩ }
    match st2.helper.pop with
    | none => .error st2
    | some (fired, h2) =>
      let st3 : TState := { st2 with helper := h2, hookLog := st2.hookLog ++ fired }
      .ok (st3.wrapper, st3)

/-- `~InstanceSafetyHelper`, run at process teardown on the static holder:
assert the wrapper is not initialized and the pointer is null; `none` is the
failed assertion. -/
def InstanceSafetyHelper.dtor (w : PointerWrapper) : Option Unit :=
  if w.initialized = false ∧ w.raw_pointer = none then some () else none

/-- A successful `createInstance` yields the wrapper `{true, fresh}` both as
its return value and in the resulting state. -/
theorem createInstance_ok (fresh : Nat) (st : TState) (w : PointerWrapper)
    (st' : TState) (h : createInstance fresh st = .ok (w, st')) :
    w = ⟨true, some fresh⟩ ∧ st'.wrapper = ⟨true, some fresh⟩ := by
  unfold createInstance at h
  cases hp : st.wrapper.raw_pointer with
  | some q => rw [hp] at h; exact absurd h (by simp)
  | none =>
    rw [hp] at h
    simp only at h
    cases hpop : (st.helper.push fresh).pop with
    | none => rw [hpop] at h; exact absurd h (by simp)
    | some r =>
      rw [hpop] at h
      cases r with
      | mk fired h2 =>
        simp only [Except.ok.injEq, Prod.mk.injEq] at h
        exact ⟨h.1.symm, by rw [← h.2]⟩

/-- C2: before any `createInstance`, `getInstance` fails with a fatal
assertion; after a successful `createInstance`, every `getInstance` call
succeeds with the same reference (the state is untouched, so repeated calls
agree); after a successful `destructInstance`, `getInstance` fails again
instead of returning a stale pointer. -/
theorem C2_lifecycle (st : TState) (fresh : Nat) :
    getInstance TState.init = .error TState.init ∧
    (∀ w st', createInstance fresh st = .ok (w, st') →
      getInstance st' = .ok (fresh, st') ∧
      (∀ st'', destructInstance st' = .ok st'' →
        getInstance st'' = .error st'')) := by
  refine ⟨rfl, fun w st' hok => ?_⟩
  have hw := (createInstance_ok fresh st w st' hok).2
  constructor
  · unfold getInstance
    rw [hw]
    rfl
  · intro st'' hdes
    unfold destructInstance at hdes
    rw [hw] at hdes
    simp only [if_true, Except.ok.injEq] at hdes
    unfold getInstance
    rw [← hdes]

/-- Witness for C2: creating from the pristine state with address `7`, the
resulting state answers `getInstance` with `7`. -/
theorem C2_witness :
    getInstance ⟨⟨true, some 7⟩, ⟨0, []⟩, [7]⟩ =
      .ok (7, ⟨⟨true, some 7⟩, ⟨0, []⟩, [7]⟩) :=
  (((C2_lifecycle TState.init 7).2 ⟨true, some 7⟩
    ⟨⟨true, some 7⟩, ⟨0, []⟩, [7]⟩ rfl)).1

/-- C3: `createInstance` called while the holder's pointer slot is already
occupied fails with a fatal assertion — the very first `assert` fires before
anything is mutated, so the error state is the input state and the existing
instance is untouched. -/
theorem C3_double_create (st : TState) (p fresh : Nat)
    (h : st.wrapper.raw_pointer = some p) :
    createInstance fresh st = .error st := by
  unfold createInstance
  rw [h]

/-- Witness for C3: a second `createInstance` on a holder occupied by the
instance at address `7` halts, leaving the state unchanged. -/
theorem C3_witness :
    createInstance 9 ⟨⟨true, some 7⟩, ⟨0, []⟩, [7]⟩ =
      .error ⟨⟨true, some 7⟩, ⟨0, []⟩, [7]⟩ :=
  C3_double_create ⟨⟨true, some 7⟩, ⟨0, []⟩, [7]⟩ 7 9 rfl

/-- C9: `getInstanceDuringBuilding` succeeds — returning the
under-construction instance's storage and leaving the state untouched —
exactly when the slot is occupied but not yet initialized, and fails with a
fatal assertion when the slot is empty or the instance is fully
initialized. -/
theorem C9_during_building (st : TState) :
    (∀ p, st.wrapper.raw_pointer = some p → st.wrapper.initialized = false →
      getInstanceDuringBuilding st = .ok (p, st)) ∧
    (st.wrapper.raw_pointer = none →
      getInstanceDuringBuilding st = .error st) ∧
    (st.wrapper.initialized = true →
      getInstanceDuringBuilding st = .error st) := by
  refine ⟨fun p hp hini => ?_, fun hp => ?_, fun hini => ?_⟩
  · unfold getInstanceDuringBuilding
    rw [hp, hini]
    rfl
  · unfold getInstanceDuringBuilding
    rw [hp]
  · unfold getInstanceDuringBuilding
    cases hp : st.wrapper.raw_pointer with
    | none => rfl
    | some p => rw [hini]; rfl

/-- Witness for C9: with storage at address `5` occupied and not yet
initialized, `getInstanceDuringBuilding` returns `5`. -/
theorem C9_witness :
    getInstanceDuringBuilding ⟨⟨false, some 5⟩, ⟨1, [5]⟩, []⟩ =
      .ok (5, ⟨⟨false, some 5⟩, ⟨1, [5]⟩, []⟩) :=
  (C9_during_building ⟨⟨false, some 5⟩, ⟨1, [5]⟩, []⟩).1 5 rfl rfl

/-- C10: once the holder's pointer is non-null, the deprecated lazy
`Instance` accessor is idempotent: it skips the construction block entirely,
returning the existing wrapper and leaving the holder, the coordinator and
the hook log (the whole state) unchanged — no second instance is ever
constructed. -/
theorem C10_Instance_idempotent (st : TState) (p fresh : Nat)
    (h : st.wrapper.raw_pointer = some p) :
    Instance fresh st = .ok (st.wrapper, st) := by
  unfold Instance
  rw [h]

/-- Witness for C10: `Instance` on a holder occupied by address `7` returns
the existing wrapper and the unchanged state. -/
theorem C10_witness :
    Instance 9 ⟨⟨true, some 7⟩, ⟨0, []⟩, [7]⟩ =
      .ok (⟨true, some 7⟩, ⟨⟨true, some 7⟩, ⟨0, []⟩, [7]⟩) :=
  C10_Instance_idempotent ⟨⟨true, some 7⟩, ⟨0, []⟩, [7]⟩ 7 9 rfl

/-- C7: destroying the holder's static storage at process teardown fails
with a fatal assertion while the wrapper is still marked initialized, and
succeeds exactly when the singleton was explicitly destroyed first, leaving
`initialized` false and the pointer absent; in particular a successful
`destructInstance` makes teardown succeed. -/
theorem C7_teardown (w : PointerWrapper) (st : TState) :
    (w.initialized = true → InstanceSafetyHelper.dtor w = none) ∧
    (InstanceSafetyHelper.dtor w = some () ↔
      w.initialized = false ∧ w.raw_pointer = none) ∧
    (∀ st', destructInstance st = .ok st' →
      InstanceSafetyHelper.dtor st'.wrapper = some ()) := by
  refine ⟨fun hini => ?_, ?_, fun st' hdes => ?_⟩
  · unfold InstanceSafetyHelper.dtor
    rw [if_neg]
    intro hcon
    rw [hini] at hcon
    exact absurd hcon.1 (by simp)
  · unfold InstanceSafetyHelper.dtor
    constructor
    · intro hsome
      by_cases hc : w.initialized = false ∧ w.raw_pointer = none
      · exact hc
      · rw [if_neg hc] at hsome; exact absurd hsome (by simp)
    · intro hc
      rw [if_pos hc]
  · unfold destructInstance at hdes
    cases hp : st.wrapper.raw_pointer with
    | none => rw [hp] at hdes; exact absurd hdes (by simp)
    | some q =>
      rw [hp] at hdes
      by_cases hini : st.wrapper.initialized
      · rw [if_pos hini] at hdes
        simp only [Except.ok.injEq] at hdes
        rw [← hdes]
        rfl
      · rw [if_neg hini] at hdes; exact absurd hdes (by simp)

/-- Witness for C7: teardown on a still-initialized wrapper halts. -/
theorem C7_witness : InstanceSafetyHelper.dtor ⟨true, some 3⟩ = none :=
  (C7_teardown ⟨true, some 3⟩ TState.init).1 rfl

/-- The spec's holder invariant: an initialized wrapper is occupied. -/
def WrapperInv (w : PointerWrapper) : Prop :=
  w.initialized = true → w.occupied

instance (w : PointerWrapper) : Decidable (WrapperInv w) := by
  unfold WrapperInv; infer_instance

/-- C8: every holder operation — `createInstance`, `destructInstance`, the
lazy `Instance`, `getInstance` and `getInstanceDuringBuilding` — preserves
the holder invariant `initialized ⇒ occupied` (both in the resulting state
and in any returned wrapper), and the pointer is non-absent exactly when the
slot is occupied. -/
theorem C8_holder_invariant (st : TState) (fresh : Nat)
    (h : WrapperInv st.wrapper) :
    (∀ w st', createInstance fresh st = .ok (w, st') →
      WrapperInv st'.wrapper ∧ WrapperInv w) ∧
    (∀ st', destructInstance st = .ok st' → WrapperInv st'.wrapper) ∧
    (∀ w st', Instance fresh st = .ok (w, st') →
      WrapperInv st'.wrapper ∧ WrapperInv w) ∧
    (∀ p st', getInstance st = .ok (p, st') → WrapperInv st'.wrapper) ∧
    (∀ p st', getInstanceDuringBuilding st = .ok (p, st') →
      WrapperInv st'.wrapper) ∧
    (st.wrapper.raw_pointer.isSome ↔ st.wrapper.occupied) := by
  refine ⟨fun w st' hok => ?_, fun st' hok => ?_, fun w st' hok => ?_,
    fun p st' hok => ?_, fun p st' hok => ?_, Iff.rfl⟩
  · obtain ⟨hw, hw'⟩ := createInstance_ok fresh st w st' hok
    exact ⟨by rw [hw']; intro _; simp [PointerWrapper.occupied],
      by rw [hw]; intro _; simp [PointerWrapper.occupied]⟩
  · unfold destructInstance at hok
    cases hp : st.wrapper.raw_pointer with
    | none => rw [hp] at hok; exact absurd hok (by simp)
    | some q =>
      rw [hp] at hok
      by_cases hini : st.wrapper.initialized
      · rw [if_pos hini] at hok
        simp only [Except.ok.injEq] at hok
        rw [← hok]
        intro hcon
        exact absurd hcon (by simp)
      · rw [if_neg hini] at hok; exact absurd hok (by simp)
  · unfold Instance at hok
    cases hp : st.wrapper.raw_pointer with
    | some q =>
      rw [hp] at hok
      simp only [Except.ok.injEq, Prod.mk.injEq] at hok
      rw [← hok.2, ← hok.1]
      exact ⟨h, h⟩
    | none =>
      rw [hp] at hok
      simp only at hok
      cases hpop : (st.helper.push fresh).pop with
      | none => rw [hpop] at hok; exact absurd hok (by simp)
      | some r =>
        rw [hpop] at hok
        cases r with
        | mk fired h2 =>
          simp only [Except.ok.injEq, Prod.mk.injEq] at hok
          refine ⟨?_, ?_⟩
          · rw [← hok.2]
            intro _; simp [PointerWrapper.occupied]
          · rw [← hok.1]
            intro _; simp [PointerWrapper.occupied]
  · unfold getInstance at hok
    split at hok
    · exact absurd hok (by simp)
    · split at hok
      · simp only [Except.ok.injEq, Prod.mk.injEq] at hok
        rw [← hok.2]
        exact h
      · exact absurd hok (by simp)
  · unfold getInstanceDuringBuilding at hok
    split at hok
    · exact absurd hok (by simp)
    · split at hok
      · exact absurd hok (by simp)
      · simp only [Except.ok.injEq, Prod.mk.injEq] at hok
        rw [← hok.2]
        exact h

/-- Witness for C8: the invariant holds for the wrapper produced by
`createInstance` at address `3` from the pristine state. -/
theorem C8_witness : WrapperInv ⟨true, some 3⟩ :=
  ((C8_holder_invariant TState.init 3 (by decide)).1 ⟨true, some 3⟩
    ⟨⟨true, some 3⟩, ⟨0, []⟩, [3]⟩ rfl).2

/-!
`Collector<Type>` keeps a `std::unordered_set<Type *>` of the live
instances, modelled as a duplicate-free list of addresses (set ordering is
unspecified; list order is immaterial).  `AutoCollectable<Type>`'s
constructor calls `Collector::insert(this)` and its destructor calls
`Collector::erase(this)`, so constructing / destroying an instance is one
`insert` / `erase` on the registry.
-/

namespace Collector

/-- `Collector::insert`: `m_container.insert(c)` returns whether the element
was new; `assert(success)` fails (`none`) when the element is already
present, otherwise the element is added. -/
def insert (c : Nat) (s : List Nat) : Option (List Nat) :=
  if c ∈ s then none else some (s ++ [c])

/-- `Collector::erase`: `find` the element, `assert` it was found (`none`
when absent), and erase exactly that element. -/
def erase (c : Nat) (s : List Nat) : Option (List Nat) :=
  if c ∈ s then some (s.erase c) else none

end Collector

/-- Construct instances at the given addresses in order, each registering
itself through `AutoCollectable`'s constructor. -/
def constructAll : List Nat → List Nat → Option (List Nat)
  | [], s => some s
  | c :: cs, s => (Collector.insert c s).bind fun s' => constructAll cs s'

/-- Destroy instances at the given addresses in order, each deregistering
itself through `AutoCollectable`'s destructor. -/
def destroyAll : List Nat → List Nat → Option (List Nat)
  | [], s => some s
  | c :: cs, s => (Collector.erase c s).bind fun s' => destroyAll cs s'

/-- Constructing instances at fresh, pairwise-distinct addresses registers
exactly those addresses, appended to the registry. -/
theorem constructAll_of_fresh : ∀ (cs s : List Nat), cs.Nodup →
    (∀ c ∈ cs, c ∉ s) → constructAll cs s = some (s ++ cs)
  | [], s, _, _ => by simp [constructAll]
  | c :: cs, s, hnd, hfresh => by
    have hc : c ∉ s := hfresh c (List.mem_cons_self c cs)
    have hrec := constructAll_of_fresh cs (s ++ [c])
      (List.Nodup.of_cons hnd)
      (fun x hx => by
        intro hmem
        rcases List.mem_append.mp hmem with hs | hsing
        · exact hfresh x (List.mem_cons_of_mem c hx) hs
        · rw [List.mem_singleton] at hsing
          rw [hsing] at hx
          exact (List.nodup_cons.mp hnd).1 hx)
    simp only [constructAll, Collector.insert, if_neg hc, Option.some_bind]
    rw [hrec]
    simp

/-- Destroying the live instances in any order (any duplicate-free
enumeration of the registry) empties the registry. -/
theorem destroyAll_of_perm : ∀ (ds s : List Nat), s.Nodup → ds.Nodup →
    (∀ x, x ∈ ds ↔ x ∈ s) → destroyAll ds s = some []
  | [], s, _, _, hmem => by
    have : s = [] := List.eq_nil_iff_forall_not_mem.mpr
      (fun x hx => List.not_mem_nil x ((hmem x).mpr hx))
    rw [this]
    rfl
  | d :: ds, s, hs, hds, hmem => by
    have hd : d ∈ s := (hmem d).mp (List.mem_cons_self d ds)
    have hnd := List.nodup_cons.mp hds
    have hrec := destroyAll_of_perm ds (s.erase d) (hs.erase d) hnd.2
      (fun x => by
        rw [hs.mem_erase_iff]
        constructor
        · intro hx
          refine ⟨?_, (hmem x).mp (List.mem_cons_of_mem d hx)⟩
          intro hxd
          rw [hxd] at hx
          exact hnd.1 hx
        · intro ⟨hxd, hxs⟩
          rcases List.mem_cons.mp ((hmem x).mpr hxs) with h | h
          · exact absurd h hxd
          · exact h)
    simp only [destroyAll, Collector.erase, if_pos hd, Option.some_bind]
    exact hrec

/-- C5: constructing `N` instances (any `N ≥ 0`, e.g. an array) at fresh
pairwise-distinct addresses through the auto-registering base yields a
registry of exactly those `N` members, each present exactly once; destroying
one instance shrinks the registry by exactly one and removes exactly that
identity; destroying all `N` (in any order) empties the registry. -/
theorem C5_registry_tracking (cs : List Nat) (hnd : cs.Nodup) :
    constructAll cs [] = some cs ∧
    (∀ s', constructAll cs [] = some s' →
      s'.length = cs.length ∧ ∀ c ∈ cs, s'.count c = 1) ∧
    (∀ c ∈ cs, ∃ s', Collector.erase c cs = some s' ∧
      s'.length + 1 = cs.length ∧ c ∉ s' ∧
      (∀ x, x ∈ s' ↔ x ∈ cs ∧ x ≠ c)) ∧
    (∀ ds, ds.Nodup → (∀ x, x ∈ ds ↔ x ∈ cs) →
      destroyAll ds cs = some []) := by
  have hcons : constructAll cs [] = some cs := by
    have := constructAll_of_fresh cs [] hnd (fun c _ => List.not_mem_nil c)
    rw [this]
    simp
  refine ⟨hcons, fun s' hs' => ?_, fun c hc => ?_, fun ds hdnd hdm => ?_⟩
  · rw [hcons] at hs'
    simp only [Option.some_inj] at hs'
    rw [← hs']
    exact ⟨rfl, fun c hcm => List.count_eq_one_of_mem hnd hcm⟩
  · refine ⟨cs.erase c, ?_, ?_, ?_, ?_⟩
    · simp [Collector.erase, if_pos hc]
    · rw [List.length_erase_of_mem hc]
      exact Nat.succ_pred_eq_of_pos (List.length_pos_of_mem hc)
    · intro hmem
      exact (hnd.mem_erase_iff.mp hmem).1 rfl
    · intro x
      rw [hnd.mem_erase_iff]
      exact ⟨fun ⟨a, b⟩ => ⟨b, a⟩, fun ⟨a, b⟩ => ⟨b, a⟩⟩
  · exact destroyAll_of_perm ds cs hnd hdnd hdm

/-- Witness for C5: three instances at addresses `10`, `20`, `30` —
constructed, counted, one destroyed, then all destroyed in another order. -/
theorem C5_witness :
    constructAll [10, 20, 30] [] = some [10, 20, 30] ∧
    destroyAll [20, 30, 10] [10, 20, 30] = some [] :=
  ⟨(C5_registry_tracking [10, 20, 30] (by decide)).1,
    (C5_registry_tracking [10, 20, 30] (by decide)).2.2.2 [20, 30, 10]
      (by decide) (fun x => by simp only [List.mem_cons, List.not_mem_nil, or_false]; tauto)⟩

/-- C6: registering an already-present instance fails with a fatal
assertion; deregistering an absent instance fails with a fatal assertion; a
successful register appends the instance to the registry and a successful
deregister removes exactly it. -/
theorem C6_register_deregister (c : Nat) (s : List Nat) :
    (c ∈ s → Collector.insert c s = none) ∧
    (c ∉ s → Collector.insert c s = some (s ++ [c]) ∧ c ∈ s ++ [c]) ∧
    (c ∉ s → Collector.erase c s = none) ∧
    (c ∈ s → ∃ s', Collector.erase c s = some s' ∧
      (s.Nodup → c ∉ s')) := by
  refine ⟨fun hmem => ?_, fun habs => ?_, fun habs => ?_, fun hmem => ?_⟩
  · simp [Collector.insert, if_pos hmem]
  · exact ⟨by simp [Collector.insert, if_neg habs], by simp⟩
  · simp [Collector.erase, if_neg habs]
  · refine ⟨s.erase c, by simp [Collector.erase, if_pos hmem], fun hnd hc => ?_⟩
    exact (hnd.mem_erase_iff.mp hc).1 rfl

/-- Witness for C6: double-registering address `4` in the registry
`[4, 8]` halts. -/
theorem C6_witness : Collector.insert 4 [4, 8] = none :=
  (C6_register_deregister 4 [4, 8]).1 (by decide)
